import Mathlib

/-!
Shallow embedding of the per-frame synchronization and dynamic draw-batch
construction engine of `simple-engine-rs` (src/rendering.rs, src/types/matrices.rs),
together with proofs checking the natural-language specification against it.

Conventions of the embedding:
* `f32`/`f64` scalars are embedded as `ℚ`; the floating-point trigonometric
  primitives (`sin`, `cos`, `tan`, `to_radians`) are carried as unconstrained
  function parameters in a `MathCtx`, since their numeric behaviour is never
  relevant to the checked claims (only data flow is).
* `u32` counters are embedded as `ℕ` (Rust debug semantics: overflow panics
  rather than wraps, so reachable values coincide with `ℕ`).
* GPU buffer objects are values `GBuffer` carrying a device address and the
  uploaded vertex data; buffer allocation draws fresh addresses from a counter
  threaded through the state, so distinct allocations are distinguishable.
* `HashMap` is embedded as an association list with first-match lookup and
  replace-or-append insertion (`alLookup` / `alInsert`); keys are unique in all
  reachable states.
* Rust's stable `slice::sort_by` is embedded as a stable insertion sort
  (`stableSortBy`); for a total preorder a stable sort's output is unique, so
  the two agree extensionally.
-/

/-- Embeds `Vec2f` (src/types/vectors.rs is not under src/; field layout is fixed
by its use in `VertexData`). -/
structure Vec2 where
  x : ℚ
  y : ℚ
deriving DecidableEq

/-- Embeds `Vec3f`/`Vec3d` (src/types/vectors.rs is not under src/; field layout
is fixed by its use in src/types/matrices.rs and src/rendering.rs). The
`f64 → f32` conversion `to_vec3f` is embedded as the identity. -/
structure Vec3 where
  x : ℚ
  y : ℚ
  z : ℚ
deriving DecidableEq

instance : Sub Vec3 := ⟨fun a b => ⟨a.x - b.x, a.y - b.y, a.z - b.z⟩⟩

/-- Modelled from the spec: `Vec3d::length_sqr` (src/types/vectors.rs is missing
from src/). Spec §4.3: "Sort selected meshes by squared distance from the camera
position"; the squared Euclidean length. -/
def Vec3.length_sqr (v : Vec3) : ℚ :=
  v.x * v.x + v.y * v.y + v.z * v.z

/-- The trigonometric/angle primitives of `f32`/`f64`, carried as unconstrained
parameters of the embedding (their float numerics never matters to the claims). -/
structure MathCtx where
  sin : ℚ → ℚ
  cos : ℚ → ℚ
  tan : ℚ → ℚ
  toRadians : ℚ → ℚ

/-- Embeds `Matrix4f` (src/types/matrices.rs): a 4×4 matrix stored as rows,
`entry i j` being `self.0[i][j]`. -/
structure Matrix4f where
  entry : Fin 4 → Fin 4 → ℚ

/-- Row helper for writing the literal matrices of src/types/matrices.rs. -/
def row4 (a b c d : ℚ) : Fin 4 → ℚ :=
  fun j => if j = 0 then a else if j = 1 then b else if j = 2 then c else d

/-- Matrix-from-rows helper for the literal matrices of src/types/matrices.rs. -/
def mat4 (r0 r1 r2 r3 : Fin 4 → ℚ) : Matrix4f :=
  ⟨fun i => if i = 0 then r0 else if i = 1 then r1 else if i = 2 then r2 else r3⟩

/-- Embeds `Matrix4f::mul` (src/types/matrices.rs lines 14-25):
`output.0[i][j] = Σ_k self.0[k][j] * rhs.0[i][k]`. -/
instance : Mul Matrix4f :=
  ⟨fun a b => ⟨fun i j => Finset.univ.sum (fun k => a.entry k j * b.entry i k)⟩⟩

/-- Embeds `Matrix4f::indentity` (sic, src/types/matrices.rs lines 29-36). -/
def Matrix4f.indentity : Matrix4f :=
  mat4 (row4 1 0 0 0) (row4 0 1 0 0) (row4 0 0 1 0) (row4 0 0 0 1)

/-- Embeds `Matrix4f::translation` (src/types/matrices.rs lines 38-45),
including the source's `-vec.x` in the last row. -/
def Matrix4f.translation (v : Vec3) : Matrix4f :=
  mat4 (row4 1 0 0 0) (row4 0 1 0 0) (row4 0 0 1 0) (row4 (-v.x) v.y v.z 1)

/-- Embeds `Matrix4f::scale` (src/types/matrices.rs lines 47-54). -/
def Matrix4f.scale (v : Vec3) : Matrix4f :=
  mat4 (row4 v.x 0 0 0) (row4 0 v.y 0 0) (row4 0 0 v.z 0) (row4 0 0 0 1)

/-- Embeds `Matrix4f::perspective` (src/types/matrices.rs lines 56-66); `tan` is
the embedded `f32::tan`. -/
def Matrix4f.perspective (tan : ℚ → ℚ) (fovy aspect near far : ℚ) : Matrix4f :=
  let f := 1 / tan (fovy / 2)
  let a := (far + near) / (near - far)
  let b := (2 * far * near) / (near - far)
  mat4 (row4 (f / aspect) 0 0 0) (row4 0 f 0 0) (row4 0 0 a (-1)) (row4 0 0 b 0)

/-- Modelled from the spec: `Matrix4f::rotation_yxz` is called from
src/rendering.rs lines 440-442 but its definition is not under src/. Spec §3:
"rotation (Euler, yaw-pitch-roll order)": rotation about Y (yaw), then X
(pitch), then Z (roll), composed with the source's matrix multiplication. -/
def Matrix4f.rotation_yxz (ctx : MathCtx) (v : Vec3) : Matrix4f :=
  let rotY := mat4 (row4 (ctx.cos v.y) 0 (-(ctx.sin v.y)) 0) (row4 0 1 0 0)
    (row4 (ctx.sin v.y) 0 (ctx.cos v.y) 0) (row4 0 0 0 1)
  let rotX := mat4 (row4 1 0 0 0) (row4 0 (ctx.cos v.x) (ctx.sin v.x) 0)
    (row4 0 (-(ctx.sin v.x)) (ctx.cos v.x) 0) (row4 0 0 0 1)
  let rotZ := mat4 (row4 (ctx.cos v.z) (ctx.sin v.z) 0 0)
    (row4 (-(ctx.sin v.z)) (ctx.cos v.z) 0 0) (row4 0 0 1 0) (row4 0 0 0 1)
  rotY * rotX * rotZ

/-- Embeds `VertexData` (src/rendering.rs lines 64-70). -/
structure VertexData where
  position : Vec3
  uv : Vec2
  normal : Vec3
deriving DecidableEq

/-- Embeds `VPData` (src/rendering.rs lines 72-77). -/
structure VPData where
  view : Matrix4f
  projection : Matrix4f

/-- Embeds `ModelData` (src/types/transform.rs is not under src/; the two fields
are fixed by the struct literal at src/rendering.rs lines 437-443). -/
structure ModelData where
  model : Matrix4f
  rotation : Matrix4f

/-- Embeds `Transform` (src/types/transform.rs is not under src/; fields fixed
by use at src/rendering.rs lines 439-441 and spec §3: position, rotation
(Euler), scale). -/
structure Transform where
  position : Vec3
  rotation : Vec3
  scale : Vec3
deriving DecidableEq

/-- Embeds `Camera` (src/types/camera.rs is not under src/; fields fixed by use
at src/rendering.rs lines 685-689 and spec §3: vertical fov, near/far planes). -/
structure Camera where
  vfov : ℚ
  near : ℚ
  far : ℚ
deriving DecidableEq

/-- Embeds `DynamicMesh` (src/types/mesh.rs is not under src/; fields fixed by
use throughout `prepare_dynamic_meshes` and spec §3: vertex list, optional
`buffer_id`, `changed` dirty bit, material name). -/
structure DynamicMesh where
  vertices : List VertexData
  buffer_id : Option ℕ
  changed : Bool
  material : String
deriving DecidableEq

/-- Embeds `Material` (asset collaborator; fields per spec §3 and use at
src/rendering.rs lines 545-549). -/
structure Material where
  name : String
  vertex_shader : String
  fragment_shader : String
deriving DecidableEq

/-- Embeds `vulkano::command_buffer::DrawIndirectCommand` as used at
src/rendering.rs lines 444-451. -/
structure DrawIndirectCommand where
  vertex_count : ℕ
  instance_count : ℕ
  first_vertex : ℕ
  first_instance : ℕ
deriving DecidableEq

/-- A GPU vertex buffer object: its device address plus the uploaded data.
Fresh allocations receive fresh addresses from the allocator counter. -/
structure GBuffer where
  addr : ℕ
  data : List VertexData
deriving DecidableEq

/-- First-match lookup in an association list; embeds `HashMap::get`. -/
def alLookup {κ ν : Type} [DecidableEq κ] (k : κ) : List (κ × ν) → Option ν
  | [] => none
  | p :: l => if p.1 = k then some p.2 else alLookup k l

/-- Replace-or-append insertion in an association list; embeds
`HashMap::insert` (keys are unique in all reachable states). -/
def alInsert {κ ν : Type} [DecidableEq κ] (k : κ) (v : ν) : List (κ × ν) → List (κ × ν)
  | [] => [(k, v)]
  | p :: l => if p.1 = k then (k, v) :: l else p :: alInsert k v l

/-- Embeds `DynamicMeshBuffers` (src/rendering.rs lines 113-120). The three
GPU-visible tables are embedded by their contents. -/
structure DynamicMeshBuffers where
  id_count : ℕ
  vertex : List (ℕ × GBuffer)
  vertex_ptr : Option (List ℕ)
  model : Option (List ModelData)
  indirect_draw : Option (List DrawIndirectCommand)

/-- Embeds `DynamicMeshBuffers::new` (src/rendering.rs lines 122-132). -/
def DynamicMeshBuffers.new : DynamicMeshBuffers :=
  { id_count := 0, vertex := [], vertex_ptr := none, indirect_draw := none, model := none }

/-- One `(Entity, (&mut DynamicMesh, &Transform))` row of the scene query at
src/rendering.rs line 383; `id` plays the role of the entity id through which
mesh mutations are written back. -/
structure SceneEntry where
  id : ℕ
  mesh : DynamicMesh
  transform : Transform
deriving DecidableEq

/-- The model-matrix entry pushed at src/rendering.rs lines 437-443. -/
def modelData (ctx : MathCtx) (t : Transform) : ModelData :=
  { model := Matrix4f.translation t.position * Matrix4f.rotation_yxz ctx t.rotation
      * Matrix4f.scale t.scale,
    rotation := Matrix4f.rotation_yxz ctx t.rotation }

/-- The mutable state threaded through the mesh loop of
`prepare_dynamic_meshes`: the per-material buffer map's `id_count` and `vertex`
fields, plus the allocator's fresh-address counter. -/
structure BatchSt where
  idCount : ℕ
  vmap : List (ℕ × GBuffer)
  nextAddr : ℕ
deriving DecidableEq

/-- Embeds `allocate_dynamic_mesh` (src/rendering.rs lines 366-380): a fresh
buffer holding the mesh's current vertices; the caller advances the address
counter. -/
def allocate_dynamic_mesh (nextAddr : ℕ) (mesh : DynamicMesh) : GBuffer :=
  ⟨nextAddr, mesh.vertices⟩

/-- The three upload branches of the mesh loop (src/rendering.rs lines 404-433):
never uploaded → allocate, insert at key `id_count`, assign `buffer_id`, clear
`changed`, bump `id_count`; uploaded and `changed` → allocate and insert at key
`id_count` (the source inserts at `pmb.id_count`, not at the mesh's own
`buffer_id`), clear `changed`; otherwise unchanged. -/
def uploadMesh (st : BatchSt) (mesh : DynamicMesh) : BatchSt × DynamicMesh :=
  match mesh.buffer_id with
  | none =>
    ({ idCount := st.idCount + 1,
       vmap := alInsert st.idCount (allocate_dynamic_mesh st.nextAddr mesh) st.vmap,
       nextAddr := st.nextAddr + 1 },
     { mesh with buffer_id := some st.idCount, changed := false })
  | some _ =>
    if mesh.changed then
      ({ st with
         vmap := alInsert st.idCount (allocate_dynamic_mesh st.nextAddr mesh) st.vmap,
         nextAddr := st.nextAddr + 1 },
       { mesh with changed := false })
    else (st, mesh)

/-- The device address pushed at src/rendering.rs line 435:
`pmb.vertex.get(mesh.buffer_id.as_ref().unwrap()).unwrap().device_address()`.
The defaults stand in for the (unreachable) `unwrap` panics. -/
def ptrOf (st : BatchSt) (mesh : DynamicMesh) : ℕ :=
  ((alLookup (mesh.buffer_id.getD 0) st.vmap).map GBuffer.addr).getD 0

/-- Output of the mesh loop of `prepare_dynamic_meshes`: final loop state, the
three parallel output lists, and the mesh mutations to write back. -/
structure ProcOut where
  st : BatchSt
  vptr : List ℕ
  model : List ModelData
  ind : List DrawIndirectCommand
  upds : List (ℕ × DynamicMesh)

/-- Embeds the `for (_, (mesh, transform)) in filtered_by_material` loop of
`prepare_dynamic_meshes` (src/rendering.rs lines 402-455), with `c` the running
`counter`. Zero-vertex meshes are skipped entirely (`continue`). -/
def processEntries (ctx : MathCtx) (st : BatchSt) (c : ℕ) : List SceneEntry → ProcOut
  | [] => ⟨st, [], [], [], []⟩
  | e :: es =>
    if e.mesh.vertices.length = 0 then processEntries ctx st c es
    else
      let su := uploadMesh st e.mesh
      let rest := processEntries ctx su.1 (c + 1) es
      ⟨rest.st,
       ptrOf su.1 su.2 :: rest.vptr,
       modelData ctx e.transform :: rest.model,
       { vertex_count := e.mesh.vertices.length, instance_count := 1,
         first_vertex := 0, first_instance := c } :: rest.ind,
       (e.id, su.2) :: rest.upds⟩

/-- The sort key of src/rendering.rs line 394: squared distance of the entry's
transform position from the camera position. -/
def distKey (cameraPos : Vec3) (e : SceneEntry) : ℚ :=
  (e.transform.position - cameraPos).length_sqr

/-- The comparator handed to `sort_by` at src/rendering.rs line 394 (ascending
by `distKey`; `total_cmp` is a total order, embedded on `ℚ` as `≤`). -/
def distLe (cameraPos : Vec3) (a b : SceneEntry) : Bool :=
  distKey cameraPos a ≤ distKey cameraPos b

/-- One step of the stable sort embedding `slice::sort_by`: insert `x` after
every element `y` with `le y x` (so elements comparing equal keep their
arrival order). -/
def stableInsert {α : Type} (le : α → α → Bool) (x : α) : List α → List α
  | [] => [x]
  | y :: l => if le y x then y :: stableInsert le x l else x :: y :: l

/-- Stable sort, folding the input in order into a sorted accumulator. -/
def stableSortAux {α : Type} (le : α → α → Bool) (acc : List α) : List α → List α
  | [] => acc
  | x :: l => stableSortAux le (stableInsert le x acc) l

/-- Embeds Rust's stable `slice::sort_by` for the comparator `le`: for a total
preorder, the output of any stable sort is unique, so this insertion sort
agrees extensionally with the source's sort. -/
def stableSortBy {α : Type} (le : α → α → Bool) (l : List α) : List α :=
  stableSortAux le [] l

/-- Embeds lines 383-394 of `prepare_dynamic_meshes`: filter the scene query by
material, then stable-sort by squared distance from the camera position. -/
def sortForMaterial (scene : List SceneEntry) (cameraPos : Vec3) (mat : String) :
    List SceneEntry :=
  stableSortBy (distLe cameraPos) (scene.filter (fun e => e.mesh.material = mat))

/-- The subset of `Renderer` (src/rendering.rs lines 134-163) that the verified
core reads and writes: view-projection data, camera position, resize flags,
fence slots, the pipeline cache, the per-material dynamic-mesh buffers, the
viewport extent, plus the two embedding counters for fresh buffer addresses and
fresh fence identities. A fence slot holds `some fid` for an outstanding
submission's fence and `none` for "no fence" (the source's `Fence = Option`). -/
structure RendererSt where
  vp_data : VPData
  vp_pos : Vec3
  window_resized : Bool
  recreate_swapchain : Bool
  fences : List (Option ℕ)
  previous_fence : ℕ
  pipelines : List ((String × String) × (String × String × (ℚ × ℚ)))
  dynamic_mesh_data : List (String × DynamicMeshBuffers)
  viewport : ℚ × ℚ
  nextAddr : ℕ
  nextFenceId : ℕ

/-- Applies the mesh mutations performed through the query's `&mut DynamicMesh`
references back to the scene rows, keyed by entity id. -/
def applyUpdates (scene : List SceneEntry) (upds : List (ℕ × DynamicMesh)) :
    List SceneEntry :=
  scene.map (fun e =>
    match alLookup e.id upds with
    | some m => { e with mesh := m }
    | none => e)

/-- Embeds `prepare_dynamic_meshes` (src/rendering.rs lines 382-516): filter the
scene by material, fetch (or create) the material's `DynamicMeshBuffers`, sort
by squared camera distance, run the upload/append loop with `counter = 0`, then
rebuild the three GPU-visible tables — `Some` of the list when non-empty,
`None` otherwise — and store the buffers back under the material key. Returns
the mutated scene and renderer state. -/
def prepare_dynamic_meshes (ctx : MathCtx) (scene : List SceneEntry)
    (st : RendererSt) (material : String) : List SceneEntry × RendererSt :=
  let pmb0 := (alLookup material st.dynamic_mesh_data).getD DynamicMeshBuffers.new
  let sorted := sortForMaterial scene st.vp_pos material
  let out := processEntries ctx ⟨pmb0.id_count, pmb0.vertex, st.nextAddr⟩ 0 sorted
  let pmb1 : DynamicMeshBuffers :=
    { id_count := out.st.idCount,
      vertex := out.st.vmap,
      model := if 0 < out.model.length then some out.model else none,
      vertex_ptr := if 0 < out.vptr.length then some out.vptr else none,
      indirect_draw := if 0 < out.ind.length then some out.ind else none }
  (applyUpdates scene out.upds,
   { st with
     dynamic_mesh_data := alInsert material pmb1 st.dynamic_mesh_data,
     nextAddr := out.st.nextAddr })

/-- The per-material `DynamicMeshBuffers` after a `prepare_dynamic_meshes` run. -/
def pmbAfter (ctx : MathCtx) (scene : List SceneEntry) (st : RendererSt)
    (material : String) : DynamicMeshBuffers :=
  (alLookup material (prepare_dynamic_meshes ctx scene st material).2.dynamic_mesh_data).getD
    DynamicMeshBuffers.new

/-- The sorted selection a material's batch is built from: material filter, then
distance sort, then the loop's `continue` on zero-vertex meshes. -/
def selFor (scene : List SceneEntry) (cameraPos : Vec3) (mat : String) :
    List SceneEntry :=
  (sortForMaterial scene cameraPos mat).filter (fun e => e.mesh.vertices.length ≠ 0)

/-- Contents of an `Option`al GPU table (`None` = unset = empty). -/
def optList {α : Type} (o : Option (List α)) : List α :=
  o.getD []

/-- GPU commands recorded per material by `get_command_buffers`
(src/rendering.rs lines 542-609), tagged with the material being processed:
pipeline bind (with the pipeline-cache key), the three descriptor-set binds,
and the single indirect draw. -/
inductive CmdEvent where
  | bind_pipeline (material : String) (key : String × String)
  | bind_descriptor_sets (material : String)
  | draw_indirect (material : String) (cmds : List DrawIndirectCommand)
deriving DecidableEq

/-- The material a recorded command was emitted for. -/
def CmdEvent.materialOf : CmdEvent → String
  | .bind_pipeline m _ => m
  | .bind_descriptor_sets m => m
  | .draw_indirect m _ => m

/-- The material loop of `get_command_buffers` (src/rendering.rs lines 542-609):
a material whose batch has any unset table is skipped (`continue`); otherwise
its pipeline is looked up by the material's shader pair and bound, the three
descriptor sets are bound, and one indirect draw is issued. -/
def cmdEvents (assets : List Material) : List (String × DynamicMeshBuffers) → List CmdEvent
  | [] => []
  | (key, entry) :: rest =>
    if entry.vertex_ptr.isNone || entry.model.isNone || entry.indirect_draw.isNone then
      cmdEvents assets rest
    else
      let mat := ((assets.find? (fun x => x.name = key)).getD ⟨key, "", ""⟩)
      .bind_pipeline key (mat.vertex_shader, mat.fragment_shader)
        :: .bind_descriptor_sets key
        :: .draw_indirect key (optList entry.indirect_draw)
        :: cmdEvents assets rest

/-- Embeds `get_command_buffers` (src/rendering.rs lines 518-614), restricted to
the dynamic-mesh material loop (render-pass begin/end and the fixed clear
values carry no claim-relevant state). -/
def get_command_buffers (assets : List Material) (st : RendererSt) : List CmdEvent :=
  cmdEvents assets st.dynamic_mesh_data

/-- Embeds `get_pipeline` (src/rendering.rs lines 311-364) at the granularity
the claims need: the built pipeline value records the shader pair it was built
from and the viewport it was built against. -/
def get_pipeline (viewport : ℚ × ℚ) (key : String × String) :
    String × String × (ℚ × ℚ) :=
  (key.1, key.2, viewport)

/-- Embeds `recreate_pipelines` (src/rendering.rs lines 661-680): every cached
key is re-inserted with a pipeline rebuilt against the current viewport. -/
def recreate_pipelines (st : RendererSt) : RendererSt :=
  { st with pipelines := st.pipelines.map (fun kv => (kv.1, get_pipeline st.viewport kv.1)) }

/-- Embeds `recalculate_projection` (src/rendering.rs lines 682-691): the
projection is rebuilt from the active camera's vfov (converted to radians),
the new width/height ratio, and the camera's near and far planes. -/
def recalculate_projection (ctx : MathCtx) (camera : Camera) (st : RendererSt)
    (newDims : ℕ × ℕ) : RendererSt :=
  let proj := Matrix4f.perspective ctx.tan (ctx.toRadians camera.vfov)
    ((newDims.1 : ℚ) / (newDims.2 : ℚ)) camera.near camera.far
  { st with vp_data := { st.vp_data with projection := proj } }

/-- Embeds `handle_possible_resize` (src/rendering.rs lines 693-719): when
either flag is set, clear both flags, recreate the swapchain and framebuffers
(extent bookkeeping), update the viewport extent, recompute the projection, and
rebuild every cached pipeline. -/
def handle_possible_resize (ctx : MathCtx) (camera : Camera) (st : RendererSt)
    (newDims : ℕ × ℕ) : RendererSt :=
  if st.window_resized || st.recreate_swapchain then
    let st1 := { st with
      recreate_swapchain := false, window_resized := false,
      viewport := ((newDims.1 : ℚ), (newDims.2 : ℚ)) }
    recreate_pipelines (recalculate_projection ctx camera st1 newDims)
  else st

/-- Result of `swapchain::acquire_next_image` (src/rendering.rs lines 723-735)
after `map_err(Validated::unwrap)`: success with an image index and the
suboptimal flag, `OutOfDate`, or any other error. -/
inductive AcquireRes where
  | ok (i : ℕ) (suboptimal : Bool)
  | outOfDate
  | otherErr
deriving DecidableEq

/-- Result of `then_signal_fence_and_flush` (src/rendering.rs lines 781-794)
after `map_err(Validated::unwrap)`: success, `OutOfDate`, or any other error. -/
inductive FlushRes where
  | ok
  | outOfDate
  | otherErr
deriving DecidableEq

/-- The CPU-side actions of one `render` call, in program order. -/
inductive RenderEvent where
  | prepare (material : String)
  | record (i : ℕ)
  | waitFence (i : ℕ)
  | writeVP (i : ℕ)
  | submit (i : ℕ)
  | present (i : ℕ)
deriving DecidableEq

/-- The previous-frame dependency chosen at src/rendering.rs lines 750-758: an
already-complete `now` future when the previous-fence slot is empty, else that
slot's fence. -/
inductive PrevFut where
  | now
  | fence (id : ℕ)
deriving DecidableEq

/-- What one `render` call produced: the mutated scene and renderer state, the
ordered CPU-side event trace, the previous-frame future it joined on (if the
frame got that far), and whether a submission was issued. -/
structure FrameOutcome where
  scene : List SceneEntry
  st : RendererSt
  events : List RenderEvent
  prevFuture : Option PrevFut
  submitted : Bool

/-- Embeds `render` (src/rendering.rs lines 721-796). `none` is a panic
(`panic!`, i.e. a fatal error terminating the render loop). Program order on
acquisition success: set recreate flag on suboptimal, run
`prepare_dynamic_meshes` for every material, record the command buffer for the
acquired image, wait on that image's outstanding fence (if any), choose the
previous-frame future, write the VP buffer, submit/present/flush, store the new
fence (or `None` on flush failure, setting the recreate flag on `OutOfDate`),
and finally point `previous_fence` at the acquired image. -/
def render (ctx : MathCtx) (scene : List SceneEntry) (mats : List Material)
    (st : RendererSt) (acq : AcquireRes) (flush : FlushRes) : Option FrameOutcome :=
  match acq with
  | .outOfDate => some ⟨scene, { st with recreate_swapchain := true }, [], none, false⟩
  | .otherErr => none
  | .ok i sub =>
    let st0 := if sub then { st with recreate_swapchain := true } else st
    let ps := mats.foldl (fun acc m => prepare_dynamic_meshes ctx acc.1 acc.2 m.name)
      (scene, st0)
    let st1 := ps.2
    let evs := mats.map (fun m => RenderEvent.prepare m.name)
      ++ [RenderEvent.record i]
      ++ (if (st1.fences.getD i none).isSome then [RenderEvent.waitFence i] else [])
      ++ [RenderEvent.writeVP i, RenderEvent.submit i, RenderEvent.present i]
    let pf : PrevFut := match st1.fences.getD st1.previous_fence none with
      | none => .now
      | some f => .fence f
    let slot : Option ℕ × Bool := match flush with
      | .ok => (some st1.nextFenceId, false)
      | .outOfDate => (none, true)
      | .otherErr => (none, false)
    some ⟨ps.1,
      { st1 with
        fences := st1.fences.set i slot.1,
        nextFenceId := st1.nextFenceId + 1,
        recreate_swapchain := st1.recreate_swapchain || slot.2,
        previous_fence := i },
      evs, some pf, true⟩

/-- Event trace of an optional frame outcome (empty when the call panicked). -/
def eventsOf (o : Option FrameOutcome) : List RenderEvent :=
  (o.map FrameOutcome.events).getD []

/-- The material's current `DynamicMeshBuffers`, created fresh on first use
(src/rendering.rs lines 385-391). -/
def pmbCurrent (st : RendererSt) (material : String) : DynamicMeshBuffers :=
  (alLookup material st.dynamic_mesh_data).getD DynamicMeshBuffers.new

/-- The mesh loop's output inside one `prepare_dynamic_meshes` run. -/
def batchOut (ctx : MathCtx) (scene : List SceneEntry) (st : RendererSt)
    (material : String) : ProcOut :=
  processEntries ctx
    ⟨(pmbCurrent st material).id_count, (pmbCurrent st material).vertex, st.nextAddr⟩ 0
    (sortForMaterial scene st.vp_pos material)

/-! ### Concrete fixtures used by witnesses and counterexamples -/

/-- A concrete instantiation of the trigonometric primitives (their values are
irrelevant to every checked property). -/
def wCtx : MathCtx :=
  ⟨fun _ => 0, fun _ => 1, fun _ => 1, fun q => q⟩

/-- A vertex whose position x-coordinate is `p`. -/
def wVtx (p : ℚ) : VertexData :=
  ⟨⟨p, 0, 0⟩, ⟨0, 0⟩, ⟨0, 0, 0⟩⟩

/-- A transform sitting at `(p, 0, 0)` with zero rotation and unit scale. -/
def wTr (p : ℚ) : Transform :=
  ⟨⟨p, 0, 0⟩, ⟨0, 0, 0⟩, ⟨1, 1, 1⟩⟩

/-- A fresh renderer state: camera at the origin, two empty fence slots, no
cached pipelines, no dynamic-mesh data. -/
def wSt : RendererSt :=
  { vp_data := ⟨Matrix4f.indentity, Matrix4f.indentity⟩
    vp_pos := ⟨0, 0, 0⟩
    window_resized := false
    recreate_swapchain := false
    fences := [none, none]
    previous_fence := 0
    pipelines := []
    dynamic_mesh_data := []
    viewport := (1, 1)
    nextAddr := 1
    nextFenceId := 0 }

/-- `wSt` with a fence (id 5) outstanding in slot 0. -/
def wStFence : RendererSt :=
  { wSt with fences := [some 5, none] }

/-- Vertex data of mesh A before modification. -/
def wVA : List VertexData := [wVtx 1, wVtx 2, wVtx 3]

/-- Vertex data of mesh A after modification (distinct from `wVA`). -/
def wVA2 : List VertexData := [wVtx 4, wVtx 5, wVtx 6]

/-- Vertex data of mesh B (distinct from `wVA` and `wVA2`). -/
def wVB : List VertexData := [wVtx 7, wVtx 8]

/-- Frame 1 scene: mesh A, never uploaded. -/
def wSceneF1 : List SceneEntry := [⟨0, ⟨wVA, none, false, "m"⟩, wTr 0⟩]

/-- State after frame 1's batch build for material "m". -/
def wStF1 : RendererSt := (prepare_dynamic_meshes wCtx wSceneF1 wSt "m").2

/-- Frame 2 scene: mesh A after the user modified its vertices (now `wVA2`) and
set its `changed` flag; it was uploaded in frame 1 under `buffer_id = 0`. -/
def wSceneF2 : List SceneEntry := [⟨0, ⟨wVA2, some 0, true, "m"⟩, wTr 0⟩]

/-- State after frame 2's batch build for material "m". -/
def wStF2 : RendererSt := (prepare_dynamic_meshes wCtx wSceneF2 wStF1 "m").2

/-- Frame 3 scene: mesh A (unchanged since frame 2) plus a brand-new mesh B. -/
def wSceneF3 : List SceneEntry :=
  (prepare_dynamic_meshes wCtx wSceneF2 wStF1 "m").1 ++ [⟨1, ⟨wVB, none, false, "m"⟩, wTr 1⟩]

/-- C6 scenario scene: three meshes of material "m" at distances 1, 5, 3 from
the camera at the origin, with 3, 6 and 9 vertices respectively. -/
def wSceneC6 : List SceneEntry :=
  [⟨0, ⟨List.replicate 3 (wVtx 1), none, false, "m"⟩, wTr 1⟩,
   ⟨1, ⟨List.replicate 6 (wVtx 2), none, false, "m"⟩, wTr 5⟩,
   ⟨2, ⟨List.replicate 9 (wVtx 3), none, false, "m"⟩, wTr 3⟩]

/-- A concrete camera. -/
def wCam : Camera := ⟨60, 1 / 10, 100⟩

/-- `wSt` with the resized flag set and one cached pipeline. -/
def wStResized : RendererSt :=
  { wSt with window_resized := true, pipelines := [(("v", "f"), ("v", "f", (1, 1)))] }

/-- A one-material asset list. -/
def wAssets : List Material := [⟨"m", "v", "f"⟩]

/-! ### Sorting lemmas: `mergeSort` with the distance comparator -/

theorem distLe_trans (cp : Vec3) (a b c : SceneEntry) :
    distLe cp a b = true → distLe cp b c = true → distLe cp a c = true := by
  simp only [distLe, decide_eq_true_eq]
  exact le_trans

theorem distLe_total (cp : Vec3) (a b : SceneEntry) :
    (distLe cp a b || distLe cp b a) = true := by
  simp only [distLe, Bool.or_eq_true, decide_eq_true_eq]
  exact le_total _ _

theorem mem_stableInsert {α : Type} (le : α → α → Bool) (x : α) (l : List α)
    (a : α) : a ∈ stableInsert le x l ↔ a = x ∨ a ∈ l := by
  induction l with
  | nil => simp [stableInsert]
  | cons y l ih =>
    by_cases h : le y x
    · simp only [stableInsert, if_pos h, List.mem_cons, ih]
      tauto
    · simp only [stableInsert, if_neg h, List.mem_cons]

theorem perm_stableInsert {α : Type} (le : α → α → Bool) (x : α) (l : List α) :
    (stableInsert le x l).Perm (x :: l) := by
  induction l with
  | nil => simp [stableInsert]
  | cons y l ih =>
    by_cases h : le y x
    · rw [stableInsert, if_pos h]
      exact (ih.cons y).trans (List.Perm.swap x y l)
    · rw [stableInsert, if_neg h]

theorem pairwise_stableInsert {α : Type} (le : α → α → Bool)
    (htrans : ∀ a b c, le a b = true → le b c = true → le a c = true)
    (htotal : ∀ a b, (le a b || le b a) = true) (x : α) (l : List α)
    (hl : l.Pairwise (fun a b => le a b = true)) :
    (stableInsert le x l).Pairwise (fun a b => le a b = true) := by
  induction l with
  | nil => simp [stableInsert]
  | cons y l ih =>
    rcases List.pairwise_cons.mp hl with ⟨hy, hl2⟩
    by_cases h : le y x
    · rw [stableInsert, if_pos h]
      refine List.pairwise_cons.mpr ⟨?_, ih hl2⟩
      intro z hz
      rcases (mem_stableInsert le x l z).mp hz with rfl | hz2
      · exact h
      · exact hy z hz2
    · rw [stableInsert, if_neg h]
      have hxy : le x y = true := by
        have ht := htotal y x
        rw [Bool.eq_false_iff.mpr h, Bool.false_or] at ht
        exact ht
      refine List.pairwise_cons.mpr ⟨?_, hl⟩
      intro z hz
      rcases List.mem_cons.mp hz with rfl | hz2
      · exact hxy
      · exact htrans x y z hxy (hy z hz2)

theorem perm_stableSortAux {α : Type} (le : α → α → Bool) :
    ∀ (l acc : List α), (stableSortAux le acc l).Perm (acc ++ l) := by
  intro l
  induction l with
  | nil => intro acc; simp [stableSortAux]
  | cons x l ih =>
    intro acc
    show (stableSortAux le (stableInsert le x acc) l).Perm (acc ++ x :: l)
    exact (ih _).trans
      (((perm_stableInsert le x acc).append_right l).trans List.perm_middle.symm)

theorem pairwise_stableSortAux {α : Type} (le : α → α → Bool)
    (htrans : ∀ a b c, le a b = true → le b c = true → le a c = true)
    (htotal : ∀ a b, (le a b || le b a) = true) :
    ∀ (l acc : List α), acc.Pairwise (fun a b => le a b = true) →
      (stableSortAux le acc l).Pairwise (fun a b => le a b = true) := by
  intro l
  induction l with
  | nil => intro acc h; exact h
  | cons x l ih =>
    intro acc h
    exact ih _ (pairwise_stableInsert le htrans htotal x acc h)

theorem filter_stableInsert {α : Type} (le : α → α → Bool) (p : α → Bool)
    (htrans : ∀ a b c, le a b = true → le b c = true → le a c = true)
    (hpp : ∀ a b, p a = true → p b = true → le a b = true) (x : α) (l : List α)
    (hl : l.Pairwise (fun a b => le a b = true)) :
    List.filter p (stableInsert le x l)
      = List.filter p l ++ (if p x then [x] else []) := by
  induction l with
  | nil => cases hpx : p x <;> simp [stableInsert, hpx]
  | cons y l ih =>
    rcases List.pairwise_cons.mp hl with ⟨hy, hl2⟩
    by_cases h : le y x
    · rw [stableInsert, if_pos h, List.filter_cons, List.filter_cons]
      cases hpy : p y <;> simp [hpy, ih hl2]
    · rw [stableInsert, if_neg h]
      cases hpx : p x
      · simp [List.filter_cons, hpx]
      · have hnone : ∀ z ∈ y :: l, p z = false := by
          intro z hz
          rcases List.mem_cons.mp hz with rfl | hz2
          · cases hpz : p z
            · rfl
            · exact absurd (hpp z x hpz hpx) h
          · cases hpz : p z
            · rfl
            · exact absurd (htrans y z x (hy z hz2) (hpp z x hpz hpx)) h
        have hnil : List.filter p (y :: l) = [] :=
          List.filter_eq_nil_iff.mpr (fun a ha => by simp [hnone a ha])
        simp [List.filter_cons, hpx, hnil]

theorem filter_stableSortAux {α : Type} (le : α → α → Bool) (p : α → Bool)
    (htrans : ∀ a b c, le a b = true → le b c = true → le a c = true)
    (htotal : ∀ a b, (le a b || le b a) = true)
    (hpp : ∀ a b, p a = true → p b = true → le a b = true) :
    ∀ (l acc : List α), acc.Pairwise (fun a b => le a b = true) →
      List.filter p (stableSortAux le acc l)
        = List.filter p acc ++ List.filter p l := by
  intro l
  induction l with
  | nil => intro acc h; simp [stableSortAux]
  | cons x l ih =>
    intro acc h
    rw [stableSortAux, ih _ (pairwise_stableInsert le htrans htotal x acc h),
      filter_stableInsert le p htrans hpp x acc h, List.filter_cons]
    cases hpx : p x <;> simp

theorem stableInsert_append {α : Type} (le : α → α → Bool) (x : α) (acc : List α)
    (h : ∀ y ∈ acc, le y x = true) : stableInsert le x acc = acc ++ [x] := by
  induction acc with
  | nil => simp [stableInsert]
  | cons y l ih =>
    rw [stableInsert, if_pos (h y (List.mem_cons_self y l))]
    simp [ih (fun z hz => h z (List.mem_cons_of_mem _ hz))]

theorem stableSortAux_of_sorted {α : Type} (le : α → α → Bool) :
    ∀ (l acc : List α), (acc ++ l).Pairwise (fun a b => le a b = true) →
      stableSortAux le acc l = acc ++ l := by
  intro l
  induction l with
  | nil => intro acc h; simp [stableSortAux]
  | cons x l ih =>
    intro acc h
    have hax : ∀ y ∈ acc, le y x = true := by
      intro y hy
      exact (List.pairwise_append.mp h).2.2 y hy x (List.mem_cons_self x l)
    have hsplit : (acc ++ [x]) ++ l = acc ++ x :: l := by simp
    rw [stableSortAux, stableInsert_append le x acc hax,
      ih (acc ++ [x]) (by rw [hsplit]; exact h), hsplit]

theorem sortForMaterial_perm (scene : List SceneEntry) (cp : Vec3) (mat : String) :
    (sortForMaterial scene cp mat).Perm
      (scene.filter (fun e => e.mesh.material = mat)) := by
  have h := perm_stableSortAux (distLe cp)
    (scene.filter (fun e => e.mesh.material = mat)) []
  simpa [sortForMaterial, stableSortBy] using h

theorem sortForMaterial_pairwise (scene : List SceneEntry) (cp : Vec3) (mat : String) :
    (sortForMaterial scene cp mat).Pairwise
      (fun a b => distKey cp a ≤ distKey cp b) := by
  have h := pairwise_stableSortAux (distLe cp) (distLe_trans cp) (distLe_total cp)
    (scene.filter (fun e => e.mesh.material = mat)) [] (List.Pairwise.nil)
  exact h.imp (fun hab => by simpa [distLe] using hab)

/-- Stability of the embedded sort: the subsequence of entries at any fixed
squared distance `q` is unchanged by the sort. -/
theorem sortForMaterial_stable (scene : List SceneEntry) (cp : Vec3) (mat : String)
    (q : ℚ) :
    (sortForMaterial scene cp mat).filter (fun e => distKey cp e = q)
      = (scene.filter (fun e => e.mesh.material = mat)).filter
          (fun e => distKey cp e = q) := by
  have hpp : ∀ a b : SceneEntry, decide (distKey cp a = q) = true →
      decide (distKey cp b = q) = true → distLe cp a b = true := by
    intro a b ha hb
    rw [decide_eq_true_eq] at ha hb
    simp [distLe, ha, hb]
  have h := filter_stableSortAux (distLe cp) (fun e => decide (distKey cp e = q))
    (distLe_trans cp) (distLe_total cp) hpp
    (scene.filter (fun e => e.mesh.material = mat)) [] (List.Pairwise.nil)
  simpa [sortForMaterial, stableSortBy] using h

/-- Re-sorting an already sorted batch is the identity. -/
theorem sortForMaterial_idem (scene : List SceneEntry) (cp : Vec3) (mat : String) :
    stableSortBy (distLe cp) (sortForMaterial scene cp mat)
      = sortForMaterial scene cp mat := by
  have hsorted : (sortForMaterial scene cp mat).Pairwise
      (fun a b => distLe cp a b = true) :=
    pairwise_stableSortAux (distLe cp) (distLe_trans cp) (distLe_total cp)
      (scene.filter (fun e => e.mesh.material = mat)) [] (List.Pairwise.nil)
  have h := stableSortAux_of_sorted (distLe cp) (sortForMaterial scene cp mat) []
    (by simpa using hsorted)
  simpa [stableSortBy] using h

/-! ### Association-list and mesh-loop lemmas -/

theorem Vec3.sub_def (a b : Vec3) : a - b = ⟨a.x - b.x, a.y - b.y, a.z - b.z⟩ := rfl

theorem alLookup_alInsert_self {κ ν : Type} [DecidableEq κ] (k : κ) (v : ν)
    (l : List (κ × ν)) : alLookup k (alInsert k v l) = some v := by
  induction l with
  | nil => simp [alInsert, alLookup]
  | cons p l ih => by_cases h : p.1 = k <;> simp [alInsert, alLookup, h, ih]

theorem pmbAfter_eq (ctx : MathCtx) (scene : List SceneEntry) (st : RendererSt)
    (mat : String) :
    pmbAfter ctx scene st mat =
      { id_count := (batchOut ctx scene st mat).st.idCount,
        vertex := (batchOut ctx scene st mat).st.vmap,
        model := if 0 < (batchOut ctx scene st mat).model.length
          then some (batchOut ctx scene st mat).model else none,
        vertex_ptr := if 0 < (batchOut ctx scene st mat).vptr.length
          then some (batchOut ctx scene st mat).vptr else none,
        indirect_draw := if 0 < (batchOut ctx scene st mat).ind.length
          then some (batchOut ctx scene st mat).ind else none } := by
  simp [pmbAfter, prepare_dynamic_meshes, batchOut, pmbCurrent, alLookup_alInsert_self]

theorem optList_guard {α : Type} (L : List α) :
    optList (if 0 < L.length then some L else none) = L := by
  cases L <;> simp [optList]

theorem processEntries_vptr_length (ctx : MathCtx) (es : List SceneEntry) :
    ∀ (st : BatchSt) (c : ℕ),
      (processEntries ctx st c es).vptr.length
        = (es.filter (fun e => e.mesh.vertices.length ≠ 0)).length := by
  induction es with
  | nil => intro st c; simp [processEntries]
  | cons e es ih =>
    intro st c
    by_cases h : e.mesh.vertices.length = 0
    · have hnil : e.mesh.vertices = [] := List.length_eq_zero.mp h
      simp [processEntries, h, hnil, ih]
    · have hnil : ¬ e.mesh.vertices = [] := fun hn => h (by simp [hn])
      simp [processEntries, h, hnil, ih]

theorem processEntries_model (ctx : MathCtx) (es : List SceneEntry) :
    ∀ (st : BatchSt) (c : ℕ),
      (processEntries ctx st c es).model
        = (es.filter (fun e => e.mesh.vertices.length ≠ 0)).map
            (fun e => modelData ctx e.transform) := by
  induction es with
  | nil => intro st c; simp [processEntries]
  | cons e es ih =>
    intro st c
    by_cases h : e.mesh.vertices.length = 0
    · have hnil : e.mesh.vertices = [] := List.length_eq_zero.mp h
      simp [processEntries, h, hnil, ih]
    · have hnil : ¬ e.mesh.vertices = [] := fun hn => h (by simp [hn])
      simp [processEntries, h, hnil, ih]

theorem processEntries_ind (ctx : MathCtx) (es : List SceneEntry) :
    ∀ (st : BatchSt) (c : ℕ),
      (processEntries ctx st c es).ind
        = (List.enumFrom c (es.filter (fun e => e.mesh.vertices.length ≠ 0))).map
            (fun p => ⟨p.2.mesh.vertices.length, 1, 0, p.1⟩) := by
  induction es with
  | nil => intro st c; simp [processEntries]
  | cons e es ih =>
    intro st c
    by_cases h : e.mesh.vertices.length = 0
    · have hnil : e.mesh.vertices = [] := List.length_eq_zero.mp h
      simp [processEntries, h, hnil, ih, List.enumFrom_cons]
    · have hnil : ¬ e.mesh.vertices = [] := fun hn => h (by simp [hn])
      simp [processEntries, h, hnil, ih, List.enumFrom_cons]

theorem processEntries_idCount (ctx : MathCtx) (es : List SceneEntry) :
    ∀ (st : BatchSt) (c : ℕ),
      (processEntries ctx st c es).st.idCount
        = st.idCount
          + ((es.filter (fun e => e.mesh.vertices.length ≠ 0)).filter
              (fun e => e.mesh.buffer_id = none)).length := by
  induction es with
  | nil => intro st c; simp [processEntries]
  | cons e es ih =>
    intro st c
    by_cases h : e.mesh.vertices.length = 0
    · have hnil : e.mesh.vertices = [] := List.length_eq_zero.mp h
      simp [processEntries, h, hnil, ih]
    · have hnil : ¬ e.mesh.vertices = [] := fun hn => h (by simp [hn])
      cases hb : e.mesh.buffer_id with
      | none =>
        simp [processEntries, h, hnil, ih, uploadMesh, hb]
        omega
      | some b =>
        by_cases hc : e.mesh.changed <;>
          simp [processEntries, h, hnil, ih, uploadMesh, hb, hc]

theorem selFor_length (scene : List SceneEntry) (cp : Vec3) (mat : String) :
    (selFor scene cp mat).length
      = (scene.filter
          (fun e => e.mesh.material = mat ∧ e.mesh.vertices.length ≠ 0)).length := by
  calc (selFor scene cp mat).length
      = ((scene.filter (fun e => e.mesh.material = mat)).filter
          (fun e => e.mesh.vertices.length ≠ 0)).length :=
        ((sortForMaterial_perm scene cp mat).filter _).length_eq
    _ = (scene.filter
          (fun e => e.mesh.material = mat ∧ e.mesh.vertices.length ≠ 0)).length := by
        rw [List.filter_filter]
        refine congrArg List.length (List.filter_congr ?_)
        intro x _
        by_cases h1 : x.mesh.material = mat <;> by_cases h2 : x.mesh.vertices.length = 0 <;>
          simp [h1, h2]

theorem selFor_eq_nil (scene : List SceneEntry) (cp : Vec3) (mat : String)
    (h : scene.filter (fun e => e.mesh.material = mat ∧ e.mesh.vertices.length ≠ 0) = []) :
    selFor scene cp mat = [] := by
  have := selFor_length scene cp mat
  rw [h] at this
  exact List.length_eq_zero.mp this

/-- The three GPU tables after a batch build, as plain lists. -/
theorem batch_tables (ctx : MathCtx) (scene : List SceneEntry) (st : RendererSt)
    (mat : String) :
    optList (pmbAfter ctx scene st mat).vertex_ptr = (batchOut ctx scene st mat).vptr
      ∧ optList (pmbAfter ctx scene st mat).model = (batchOut ctx scene st mat).model
      ∧ optList (pmbAfter ctx scene st mat).indirect_draw
          = (batchOut ctx scene st mat).ind := by
  rw [pmbAfter_eq]
  exact ⟨optList_guard _, optList_guard _, optList_guard _⟩

/-! ### Command-recorder lemmas -/

theorem cmdEvents_mem (assets : List Material) (l : List (String × DynamicMeshBuffers))
    (ev : CmdEvent) (h : ev ∈ cmdEvents assets l) :
    ∃ p ∈ l, ev.materialOf = p.1 ∧ p.2.indirect_draw ≠ none := by
  induction l with
  | nil => simp [cmdEvents] at h
  | cons p l ih =>
    by_cases hskip : p.2.vertex_ptr.isNone || p.2.model.isNone || p.2.indirect_draw.isNone
    · rw [cmdEvents, if_pos hskip] at h
      obtain ⟨q, hq, hmat⟩ := ih h
      exact ⟨q, List.mem_cons_of_mem _ hq, hmat⟩
    · rw [cmdEvents, if_neg hskip] at h
      simp only [Bool.or_eq_true, Option.isNone_iff_eq_none, not_or] at hskip
      simp only [List.mem_cons] at h
      rcases h with h | h | h | h
      · exact ⟨p, List.mem_cons_self _ _, by simp [h, CmdEvent.materialOf, hskip.2]⟩
      · exact ⟨p, List.mem_cons_self _ _, by simp [h, CmdEvent.materialOf, hskip.2]⟩
      · exact ⟨p, List.mem_cons_self _ _, by simp [h, CmdEvent.materialOf, hskip.2]⟩
      · obtain ⟨q, hq, hmat⟩ := ih h
        exact ⟨q, List.mem_cons_of_mem _ hq, hmat⟩

theorem alInsert_mem {κ ν : Type} [DecidableEq κ] (k : κ) (v : ν)
    (l : List (κ × ν)) (hnod : (l.map Prod.fst).Nodup) (p : κ × ν)
    (hp : p ∈ alInsert k v l) :
    p = (k, v) ∨ (p ∈ l ∧ p.1 ≠ k) := by
  induction l with
  | nil =>
    simp [alInsert] at hp
    exact Or.inl hp
  | cons q l ih =>
    rw [List.map_cons, List.nodup_cons] at hnod
    by_cases h : q.1 = k
    · rw [alInsert, if_pos h] at hp
      rcases List.mem_cons.mp hp with h1 | h1
      · exact Or.inl h1
      · by_cases hk : p.1 = k
        · exfalso
          apply hnod.1
          rw [h, ← hk]
          exact List.mem_map_of_mem Prod.fst h1
        · exact Or.inr ⟨List.mem_cons_of_mem _ h1, hk⟩
    · rw [alInsert, if_neg h] at hp
      rcases List.mem_cons.mp hp with h1 | h1
      · refine Or.inr ⟨?_, ?_⟩
        · rw [h1]; exact List.mem_cons_self _ _
        · rw [h1]; exact h
      · rcases ih hnod.2 h1 with h2 | h2
        · exact Or.inl h2
        · exact Or.inr ⟨List.mem_cons_of_mem _ h2.1, h2.2⟩

/-! ### Frame-loop preservation lemmas -/

theorem prepare_keeps (ctx : MathCtx) (scene : List SceneEntry) (st : RendererSt)
    (m : String) :
    (prepare_dynamic_meshes ctx scene st m).2.fences = st.fences
      ∧ (prepare_dynamic_meshes ctx scene st m).2.previous_fence = st.previous_fence
      ∧ (prepare_dynamic_meshes ctx scene st m).2.nextFenceId = st.nextFenceId
      ∧ (prepare_dynamic_meshes ctx scene st m).2.recreate_swapchain
          = st.recreate_swapchain := by
  simp [prepare_dynamic_meshes]

theorem foldPrepare_keeps (ctx : MathCtx) (mats : List Material) :
    ∀ (acc : List SceneEntry × RendererSt),
      ((mats.foldl (fun a m => prepare_dynamic_meshes ctx a.1 a.2 m.name) acc).2.fences
          = acc.2.fences)
        ∧ ((mats.foldl (fun a m => prepare_dynamic_meshes ctx a.1 a.2 m.name) acc).2.previous_fence
          = acc.2.previous_fence)
        ∧ ((mats.foldl (fun a m => prepare_dynamic_meshes ctx a.1 a.2 m.name) acc).2.nextFenceId
          = acc.2.nextFenceId)
        ∧ ((mats.foldl (fun a m => prepare_dynamic_meshes ctx a.1 a.2 m.name) acc).2.recreate_swapchain
          = acc.2.recreate_swapchain) := by
  induction mats with
  | nil => intro acc; simp
  | cons m ms ih =>
    intro acc
    have h1 := ih (prepare_dynamic_meshes ctx acc.1 acc.2 m.name)
    have h2 := prepare_keeps ctx acc.1 acc.2 m.name
    simp only [List.foldl_cons]
    exact ⟨h1.1.trans h2.1, h1.2.1.trans h2.2.1, h1.2.2.1.trans h2.2.2.1,
      h1.2.2.2.trans h2.2.2.2⟩

theorem getD_set_self {α : Type} (l : List α) (i : ℕ) (v d : α) (h : i < l.length) :
    (l.set i v).getD i d = v := by
  simp [List.getD_eq_getElem?_getD, List.getElem?_set, h]

theorem batch_vptr_len (ctx : MathCtx) (scene : List SceneEntry) (st : RendererSt)
    (mat : String) :
    (batchOut ctx scene st mat).vptr.length = (selFor scene st.vp_pos mat).length := by
  rw [batchOut, processEntries_vptr_length]
  rfl

theorem batch_model_eq (ctx : MathCtx) (scene : List SceneEntry) (st : RendererSt)
    (mat : String) :
    (batchOut ctx scene st mat).model
      = (selFor scene st.vp_pos mat).map (fun e => modelData ctx e.transform) := by
  rw [batchOut, processEntries_model]
  rfl

theorem batch_ind_eq (ctx : MathCtx) (scene : List SceneEntry) (st : RendererSt)
    (mat : String) :
    (batchOut ctx scene st mat).ind
      = (List.enumFrom 0 (selFor scene st.vp_pos mat)).map
          (fun p => ⟨p.2.mesh.vertices.length, 1, 0, p.1⟩) := by
  rw [batchOut, processEntries_ind]
  rfl

theorem batch_idCount (ctx : MathCtx) (scene : List SceneEntry) (st : RendererSt)
    (mat : String) :
    (batchOut ctx scene st mat).st.idCount
      = (pmbCurrent st mat).id_count
        + ((selFor scene st.vp_pos mat).filter
            (fun e => e.mesh.buffer_id = none)).length := by
  rw [batchOut, processEntries_idCount]
  rfl

theorem prepare_dmd_eq (ctx : MathCtx) (scene : List SceneEntry) (st : RendererSt)
    (mat : String) :
    (prepare_dynamic_meshes ctx scene st mat).2.dynamic_mesh_data
      = alInsert mat (pmbAfter ctx scene st mat) st.dynamic_mesh_data := by
  simp [prepare_dynamic_meshes, pmbAfter, alLookup_alInsert_self]

theorem getD_set_none (l : List (Option ℕ)) (i : ℕ) :
    (l.set i none).getD i none = none := by
  by_cases h : i < l.length
  · exact getD_set_self l i none none h
  · rw [List.set_eq_of_length_le (le_of_not_lt h)]
    exact List.getD_eq_default l none (le_of_not_lt h)

/-! ### Claim theorems -/

/-- C4: for every material and frame, after `prepare_dynamic_meshes` the
device-address, model-matrix and indirect-command tables have equal lengths,
each equal to the number of meshes of that material with nonzero vertex count
this frame; the entries correspond index-by-index to the sorted selection (same
relative order); and `id_count` advances exactly by the number of selected
meshes that had no `buffer_id`, so zero-vertex meshes contribute no entry and
never advance the buffer-id counter. -/
theorem C4_batch_parallel_lists (ctx : MathCtx) (scene : List SceneEntry)
    (st : RendererSt) (mat : String) :
    (optList (pmbAfter ctx scene st mat).vertex_ptr).length
        = (scene.filter
            (fun e => e.mesh.material = mat ∧ e.mesh.vertices.length ≠ 0)).length
      ∧ (optList (pmbAfter ctx scene st mat).model).length
        = (scene.filter
            (fun e => e.mesh.material = mat ∧ e.mesh.vertices.length ≠ 0)).length
      ∧ (optList (pmbAfter ctx scene st mat).indirect_draw).length
        = (scene.filter
            (fun e => e.mesh.material = mat ∧ e.mesh.vertices.length ≠ 0)).length
      ∧ (∀ k : ℕ, (optList (pmbAfter ctx scene st mat).model)[k]?
          = ((selFor scene st.vp_pos mat)[k]?).map (fun e => modelData ctx e.transform))
      ∧ (pmbAfter ctx scene st mat).id_count
        = (pmbCurrent st mat).id_count
          + ((selFor scene st.vp_pos mat).filter
              (fun e => e.mesh.buffer_id = none)).length := by
  obtain ⟨hv, hm, hi⟩ := batch_tables ctx scene st mat
  refine ⟨?_, ?_, ?_, ?_, ?_⟩
  · rw [hv, batch_vptr_len, selFor_length]
  · rw [hm, batch_model_eq, List.length_map, selFor_length]
  · rw [hi, batch_ind_eq, List.length_map, List.enumFrom_length, selFor_length]
  · intro k
    rw [hm, batch_model_eq, List.getElem?_map]
  · rw [pmbAfter_eq]
    exact batch_idCount ctx scene st mat

/-- C7: for every selected (nonzero-vertex) mesh, in sorted order, the batcher
appends exactly one device-address entry, one model-matrix entry and one
indirect-draw command, whose fields are `vertex_count` = that mesh's vertex
count, `first_vertex` = 0, `instance_count` = 1 and `first_instance` = the
running count of meshes appended so far (0, 1, 2, ...). -/
theorem C7_indirect_commands (ctx : MathCtx) (scene : List SceneEntry)
    (st : RendererSt) (mat : String) :
    (optList (pmbAfter ctx scene st mat).vertex_ptr).length
        = (selFor scene st.vp_pos mat).length
      ∧ (optList (pmbAfter ctx scene st mat).model).length
        = (selFor scene st.vp_pos mat).length
      ∧ (optList (pmbAfter ctx scene st mat).indirect_draw).length
        = (selFor scene st.vp_pos mat).length
      ∧ ∀ k : ℕ, (optList (pmbAfter ctx scene st mat).indirect_draw)[k]?
          = ((selFor scene st.vp_pos mat)[k]?).map
              (fun e => ⟨e.mesh.vertices.length, 1, 0, k⟩) := by
  obtain ⟨hv, hm, hi⟩ := batch_tables ctx scene st mat
  refine ⟨?_, ?_, ?_, ?_⟩
  · rw [hv, batch_vptr_len]
  · rw [hm, batch_model_eq, List.length_map]
  · rw [hi, batch_ind_eq, List.length_map, List.enumFrom_length]
  · intro k
    rw [hi, batch_ind_eq, List.getElem?_map, List.getElem?_enumFrom]
    cases (selFor scene st.vp_pos mat)[k]? <;> simp

/-- C6: the per-material batch is sorted by squared distance from the camera
position, ascending; the sort is stable (entries at any equal distance keep
their scene order) and re-sorting a sorted batch is the identity; and in the
concrete scenario of three meshes at distances 1, 5, 3 from a camera at the
origin (with 3, 9 and 6 vertices respectively) the batch order is
[mesh@1, mesh@3, mesh@5] with `first_instance` values 0, 1, 2. -/
theorem C6_distance_sort :
    (∀ (scene : List SceneEntry) (cp : Vec3) (mat : String),
        (sortForMaterial scene cp mat).Pairwise
          (fun a b => distKey cp a ≤ distKey cp b))
      ∧ (∀ (scene : List SceneEntry) (cp : Vec3) (mat : String) (q : ℚ),
          (sortForMaterial scene cp mat).filter (fun e => distKey cp e = q)
            = (scene.filter (fun e => e.mesh.material = mat)).filter
                (fun e => distKey cp e = q))
      ∧ (∀ (scene : List SceneEntry) (cp : Vec3) (mat : String),
          stableSortBy (distLe cp) (sortForMaterial scene cp mat)
            = sortForMaterial scene cp mat)
      ∧ (pmbAfter wCtx wSceneC6 wSt "m").indirect_draw
          = some [⟨3, 1, 0, 0⟩, ⟨9, 1, 0, 1⟩, ⟨6, 1, 0, 2⟩] :=
  ⟨sortForMaterial_pairwise, sortForMaterial_stable, sortForMaterial_idem, by
    norm_num [pmbAfter, prepare_dynamic_meshes, batchOut, pmbCurrent, processEntries,
      uploadMesh, ptrOf, alLookup, alInsert, alLookup_alInsert_self, sortForMaterial,
      stableSortBy, stableSortAux, stableInsert, distLe, distKey, Vec3.length_sqr,
      Vec3.sub_def, wSceneC6, wSt, wCtx, wVtx, wTr, DynamicMeshBuffers.new,
      allocate_dynamic_mesh, applyUpdates]⟩

/-- C1 (claim fails on the code): after mesh A was uploaded in frame 1 under
`buffer_id = 0` (old vertex data `wVA`, buffer address 1) and then modified
(`changed = true`, new vertex data `wVA2`), the next batch build does NOT
re-allocate the buffer in place: the map entry at A's `buffer_id` key 0 still
holds the OLD buffer (address 1, data `wVA`), the re-allocated buffer (address
2, data `wVA2`) is parked under the unrelated key `id_count = 1`, and the
device address pushed for A is 1 — the old buffer, not the new one. Only the
clearing of the `changed` flag matches the claim. -/
theorem C1_dirty_realloc_eval :
    (pmbAfter wCtx wSceneF2 wStF1 "m").vertex_ptr = some [1]
      ∧ alLookup 0 (pmbAfter wCtx wSceneF2 wStF1 "m").vertex = some ⟨1, wVA⟩
      ∧ alLookup 1 (pmbAfter wCtx wSceneF2 wStF1 "m").vertex = some ⟨2, wVA2⟩
      ∧ (prepare_dynamic_meshes wCtx wSceneF2 wStF1 "m").1.map
          (fun e => e.mesh.changed) = [false]
      ∧ wVA ≠ wVA2 := by
  norm_num [pmbAfter, prepare_dynamic_meshes, batchOut, pmbCurrent, processEntries,
    uploadMesh, ptrOf, alLookup, alInsert, alLookup_alInsert_self, sortForMaterial,
    stableSortBy, stableSortAux, stableInsert, distLe, distKey, Vec3.length_sqr,
    Vec3.sub_def, wSceneF1, wSceneF2, wStF1, wSt, wCtx, wVtx, wTr, wVA, wVA2,
    DynamicMeshBuffers.new, allocate_dynamic_mesh, applyUpdates]

/-- C5 (claim fails on the code): the first-upload half of the claim holds (a
fresh mesh gets the next sequential id and a cleared dirty flag), but the
insertion-key sequence is NOT strictly increasing and ids ARE reused across
distinct meshes: after mesh A's dirty re-upload in frame 2 parked a buffer with
A's data `wVA2` under key 1 (without advancing `id_count`), frame 3's
first upload of the distinct mesh B inserts B's buffer under the same key 1 and
assigns B `buffer_id = 1` — the key sequence over time is 0, 1, 1. -/
theorem C5_id_reuse_eval :
    alLookup 1 (pmbAfter wCtx wSceneF2 wStF1 "m").vertex = some ⟨2, wVA2⟩
      ∧ alLookup 1 (pmbAfter wCtx wSceneF3 wStF2 "m").vertex = some ⟨3, wVB⟩
      ∧ (prepare_dynamic_meshes wCtx wSceneF3 wStF2 "m").1.map
          (fun e => e.mesh.buffer_id) = [some 0, some 1]
      ∧ wVA2 ≠ wVB := by
  norm_num [pmbAfter, prepare_dynamic_meshes, batchOut, pmbCurrent, processEntries,
    uploadMesh, ptrOf, alLookup, alInsert, alLookup_alInsert_self, sortForMaterial,
    stableSortBy, stableSortAux, stableInsert, distLe, distKey, Vec3.length_sqr,
    Vec3.sub_def, wSceneF1, wSceneF2, wSceneF3, wStF1, wStF2, wSt, wCtx, wVtx, wTr,
    wVA, wVA2, wVB, DynamicMeshBuffers.new, allocate_dynamic_mesh, applyUpdates]

/-- C8: a material with zero selected (nonzero-vertex) meshes ends the frame
with all three GPU-visible tables unset, and the command recorder emits no
pipeline bind, no descriptor-set bind and no draw for that material. -/
theorem C8_empty_material_skipped (ctx : MathCtx) (scene : List SceneEntry)
    (st : RendererSt) (assets : List Material) (mat : String)
    (hnod : (st.dynamic_mesh_data.map Prod.fst).Nodup)
    (hempty : scene.filter
      (fun e => e.mesh.material = mat ∧ e.mesh.vertices.length ≠ 0) = []) :
    (pmbAfter ctx scene st mat).vertex_ptr = none
      ∧ (pmbAfter ctx scene st mat).model = none
      ∧ (pmbAfter ctx scene st mat).indirect_draw = none
      ∧ ∀ ev ∈ get_command_buffers assets
          (prepare_dynamic_meshes ctx scene st mat).2, ev.materialOf ≠ mat := by
  have hsel : selFor scene st.vp_pos mat = [] := selFor_eq_nil scene st.vp_pos mat hempty
  have hv : (batchOut ctx scene st mat).vptr = [] := by
    have hlen := batch_vptr_len ctx scene st mat
    rw [hsel] at hlen
    exact List.length_eq_zero.mp (by simpa using hlen)
  have hm : (batchOut ctx scene st mat).model = [] := by
    rw [batch_model_eq, hsel]; rfl
  have hi : (batchOut ctx scene st mat).ind = [] := by
    rw [batch_ind_eq, hsel]; rfl
  have hpmb : (pmbAfter ctx scene st mat).vertex_ptr = none
      ∧ (pmbAfter ctx scene st mat).model = none
      ∧ (pmbAfter ctx scene st mat).indirect_draw = none := by
    rw [pmbAfter_eq]
    simp [hv, hm, hi]
  refine ⟨hpmb.1, hpmb.2.1, hpmb.2.2, ?_⟩
  intro ev hev
  rw [get_command_buffers, prepare_dmd_eq] at hev
  obtain ⟨p, hp, hevmat, hind⟩ := cmdEvents_mem assets _ ev hev
  rcases alInsert_mem mat (pmbAfter ctx scene st mat) st.dynamic_mesh_data hnod p hp
    with h1 | h1
  · exfalso
    apply hind
    rw [h1]
    exact hpmb.2.2
  · rw [hevmat]
    exact h1.2

/-- C8 witness: an empty scene, a fresh state and a one-material asset list. -/
theorem C8_empty_material_skipped_witness :
    (pmbAfter wCtx [] wSt "m").vertex_ptr = none
      ∧ (pmbAfter wCtx [] wSt "m").model = none
      ∧ (pmbAfter wCtx [] wSt "m").indirect_draw = none
      ∧ ∀ ev ∈ get_command_buffers wAssets
          (prepare_dynamic_meshes wCtx [] wSt "m").2, ev.materialOf ≠ "m" :=
  C8_empty_material_skipped wCtx [] wSt wAssets "m" (by simp [wSt]) rfl

/-- C9: after a resize (either flag set), the projection matrix is rebuilt with
aspect ratio `new_width / new_height`, keeping the camera's vfov (converted to
radians), near and far; and the pipeline cache is rebuilt with exactly the same
key set — only values are replaced, each one rebuilt against the new viewport. -/
theorem C9_resize_rebuild (ctx : MathCtx) (camera : Camera) (st : RendererSt)
    (newDims : ℕ × ℕ)
    (h : st.window_resized = true ∨ st.recreate_swapchain = true) :
    (handle_possible_resize ctx camera st newDims).vp_data.projection
        = Matrix4f.perspective ctx.tan (ctx.toRadians camera.vfov)
            ((newDims.1 : ℚ) / (newDims.2 : ℚ)) camera.near camera.far
      ∧ (handle_possible_resize ctx camera st newDims).pipelines.map Prod.fst
        = st.pipelines.map Prod.fst
      ∧ ∀ kv ∈ (handle_possible_resize ctx camera st newDims).pipelines,
          kv.2 = get_pipeline ((newDims.1 : ℚ), (newDims.2 : ℚ)) kv.1 := by
  have hcond : (st.window_resized || st.recreate_swapchain) = true := by
    rcases h with h | h <;> simp [h]
  refine ⟨?_, ?_, ?_⟩
  · simp [handle_possible_resize, hcond, recreate_pipelines, recalculate_projection]
  · simp [handle_possible_resize, hcond, recreate_pipelines, recalculate_projection,
      List.map_map]
  · intro kv hkv
    simp only [handle_possible_resize, hcond, if_true, recreate_pipelines,
      recalculate_projection, List.mem_map] at hkv
    obtain ⟨a, _, heq⟩ := hkv
    rw [← heq]

/-- C9 witness: resized flag set, new drawable size 4×3. -/
theorem C9_resize_rebuild_witness :
    (handle_possible_resize wCtx wCam wStResized (4, 3)).vp_data.projection
        = Matrix4f.perspective wCtx.tan (wCtx.toRadians wCam.vfov)
            (((4 : ℕ) : ℚ) / ((3 : ℕ) : ℚ)) wCam.near wCam.far
      ∧ (handle_possible_resize wCtx wCam wStResized (4, 3)).pipelines.map Prod.fst
        = wStResized.pipelines.map Prod.fst
      ∧ ∀ kv ∈ (handle_possible_resize wCtx wCam wStResized (4, 3)).pipelines,
          kv.2 = get_pipeline (((4 : ℕ) : ℚ), ((3 : ℕ) : ℚ)) kv.1 :=
  C9_resize_rebuild wCtx wCam wStResized (4, 3) (Or.inl rfl)

/-- C2 (claim fails on the code, amended version): on a frame whose acquired
image slot `i` holds an outstanding fence, the CPU-side order of `render` is:
per-material batch prepares, then command-buffer recording for image `i`, THEN
the wait on slot `i`'s previous fence, then the VP-buffer write, submission and
presentation — i.e. the fence wait precedes the VP write and submission but
happens after (not before) the command buffer is recorded. -/
theorem C2_wait_order (ctx : MathCtx) (scene : List SceneEntry) (mats : List Material)
    (st : RendererSt) (i : ℕ) (sub : Bool) (flush : FlushRes)
    (hf : (st.fences.getD i none).isSome = true) :
    ((render ctx scene mats st (.ok i sub) flush).map FrameOutcome.events)
      = some (mats.map (fun m => RenderEvent.prepare m.name)
          ++ [RenderEvent.record i, RenderEvent.waitFence i, RenderEvent.writeVP i,
              RenderEvent.submit i, RenderEvent.present i]) := by
  have hk := (foldPrepare_keeps ctx mats
    (scene, if sub then { st with recreate_swapchain := true } else st)).1
  have hacc : (if sub then { st with recreate_swapchain := true } else st).fences
      = st.fences := by cases sub <;> rfl
  rw [hacc] at hk
  simp only [render, Option.map_some']
  rw [hk, hf]
  simp

/-- C2 witness: slot 0 holds fence 5 and image 0 is acquired. -/
theorem C2_wait_order_witness :
    ((render wCtx [] [] wStFence (.ok 0 false) .ok).map FrameOutcome.events)
      = some (([] : List Material).map (fun m => RenderEvent.prepare m.name)
          ++ [RenderEvent.record 0, RenderEvent.waitFence 0, RenderEvent.writeVP 0,
              RenderEvent.submit 0, RenderEvent.present 0]) :=
  C2_wait_order wCtx [] [] wStFence 0 false .ok (by decide)

/-- C2 counterexample to the claim as stated: with slot 0 occupied, the frame's
event trace records the command buffer for image 0 BEFORE waiting on slot 0's
fence, so the wait does not happen before recording. -/
theorem C2_record_before_wait :
    eventsOf (render wCtx [] [] wStFence (.ok 0 false) .ok)
        = [RenderEvent.record 0, RenderEvent.waitFence 0, RenderEvent.writeVP 0,
           RenderEvent.submit 0, RenderEvent.present 0]
      ∧ ¬ ((eventsOf (render wCtx [] [] wStFence (.ok 0 false) .ok)).indexOf
            (RenderEvent.waitFence 0)
          < (eventsOf (render wCtx [] [] wStFence (.ok 0 false) .ok)).indexOf
            (RenderEvent.record 0)) := by
  decide

/-- C3 (claim fails on the code, amended version): acquisition `OutOfDate` sets
the recreate flag and aborts the frame with no events, no submission and no
change to any other state (fence slots included); acquisition success with the
suboptimal flag still submits and presents while setting the recreate flag; any
other ACQUISITION error is fatal (`none` = panic); but a non-`OutOfDate`
flush/present error is NOT fatal — the frame still counts as submitted, the
slot is cleared to `None`, and the render loop continues. -/
theorem C3_surface_errors (ctx : MathCtx) (scene : List SceneEntry)
    (mats : List Material) (st : RendererSt) (flush : FlushRes) :
    (render ctx scene mats st .outOfDate flush
        = some ⟨scene, { st with recreate_swapchain := true }, [], none, false⟩)
      ∧ (render ctx scene mats st .otherErr flush = none)
      ∧ (∀ i : ℕ, ((render ctx scene mats st (.ok i true) flush).map
            (fun o => (o.st.recreate_swapchain, o.submitted))) = some (true, true)
          ∧ RenderEvent.submit i ∈ eventsOf (render ctx scene mats st (.ok i true) flush)
          ∧ RenderEvent.present i ∈ eventsOf (render ctx scene mats st (.ok i true) flush))
      ∧ (∀ (i : ℕ) (sub : Bool),
          ((render ctx scene mats st (.ok i sub) .otherErr).map
            (fun o => (o.submitted, o.st.fences.getD i none))) = some (true, none)) := by
  refine ⟨rfl, rfl, ?_, ?_⟩
  · intro i
    have hk := (foldPrepare_keeps ctx mats
      (scene, { st with recreate_swapchain := true })).2.2.2
    refine ⟨?_, ?_, ?_⟩
    · simp only [render, Option.map_some', if_true]
      rw [hk]
      simp
    · simp [render, eventsOf]
    · simp [render, eventsOf]
  · intro i sub
    simp only [render, Option.map_some']
    rw [getD_set_none]

/-- C3 counterexample to the claim as stated: a non-`OutOfDate` presentation
(flush) error does not terminate the render loop — `render` returns normally
instead of panicking. -/
theorem C3_flush_error_not_fatal :
    (render wCtx [] [] wSt (.ok 0 false) .otherErr).isSome = true := by
  decide

/-- C10 (implicit): whenever `render` successfully acquires image `i`, it ends
the frame with `previous_fence = i` and slot `i` unconditionally overwritten —
with the new fence id when the flush succeeds, with `None` on any flush failure
(`OutOfDate` included) — and whenever the previous-fence slot holds `None`, the
previous-frame dependency used is the already-complete `now` future rather than
a blocking wait or an error. -/
theorem C10_fence_slot_update (ctx : MathCtx) (scene : List SceneEntry)
    (mats : List Material) (st : RendererSt) (i : ℕ) (sub : Bool) (flush : FlushRes)
    (hi : i < st.fences.length) :
    ((render ctx scene mats st (.ok i sub) flush).map
        (fun o => o.st.previous_fence)) = some i
      ∧ (flush = .ok →
          ((render ctx scene mats st (.ok i sub) flush).map
            (fun o => o.st.fences.getD i none)) = some (some st.nextFenceId))
      ∧ (flush ≠ .ok →
          ((render ctx scene mats st (.ok i sub) flush).map
            (fun o => o.st.fences.getD i none)) = some none)
      ∧ (st.fences.getD st.previous_fence none = none →
          ((render ctx scene mats st (.ok i sub) flush).map
            (fun o => o.prevFuture)) = some (some PrevFut.now)) := by
  have hk := foldPrepare_keeps ctx mats
    (scene, if sub then { st with recreate_swapchain := true } else st)
  have hacc : ((if sub then { st with recreate_swapchain := true } else st).fences
        = st.fences)
      ∧ ((if sub then { st with recreate_swapchain := true } else st).previous_fence
        = st.previous_fence)
      ∧ ((if sub then { st with recreate_swapchain := true } else st).nextFenceId
        = st.nextFenceId) := by cases sub <;> exact ⟨rfl, rfl, rfl⟩
  have hkf := hk.1.trans hacc.1
  have hkp := hk.2.1.trans hacc.2.1
  have hkn := hk.2.2.1.trans hacc.2.2
  refine ⟨?_, ?_, ?_, ?_⟩
  · simp [render]
  · intro hfl
    subst hfl
    simp only [render, Option.map_some']
    rw [hkf, hkn, getD_set_self _ _ _ _ hi]
  · intro hfl
    cases flush with
    | ok => exact absurd rfl hfl
    | outOfDate =>
      simp only [render, Option.map_some']
      rw [getD_set_none]
    | otherErr =>
      simp only [render, Option.map_some']
      rw [getD_set_none]
  · intro hslot
    simp only [render, Option.map_some']
    rw [hkf, hkp, hslot]

/-- C10 witness: both slots empty, image 0 acquired, flush succeeds — the slot
is overwritten with the new fence and the empty previous-fence slot yields the
`now` future. -/
theorem C10_fence_slot_update_witness :
    ((render wCtx [] [] wSt (.ok 0 false) .ok).map
        (fun o => o.st.previous_fence)) = some 0
      ∧ (FlushRes.ok = .ok →
          ((render wCtx [] [] wSt (.ok 0 false) .ok).map
            (fun o => o.st.fences.getD 0 none)) = some (some wSt.nextFenceId))
      ∧ (FlushRes.ok ≠ .ok →
          ((render wCtx [] [] wSt (.ok 0 false) .ok).map
            (fun o => o.st.fences.getD 0 none)) = some none)
      ∧ (wSt.fences.getD wSt.previous_fence none = none →
          ((render wCtx [] [] wSt (.ok 0 false) .ok).map
            (fun o => o.prevFuture)) = some (some PrevFut.now)) :=
  C10_fence_slot_update wCtx [] [] wSt 0 false .ok (by decide)
